import Mathlib

/-!
# Verification of the synth.io audio engine core

Shallow embedding of the C++ sources under `app/src/main/cpp/audio/`
(AudioEngine, PolyphonyManager, Looper, DrumMachine, Filter).  Float
samples and parameters are modelled as exact rationals; machine `int` /
`int64_t` counters as `Int`; `uint64_t` ages as `Nat` (the age counter
counts noteOns, far below the 2^64 wrap).  Transcendental tails
(`std::tanh`) that no claim touches are passed as explicit function
parameters so every definition stays executable.
-/

namespace Synth

/-- `std::clamp(x, lo, hi)`: `lo` if `x < lo`, `hi` if `hi < x`, else `x`. -/
def clampQ (x lo hi : ℚ) : ℚ :=
  if x < lo then lo else if hi < x then hi else x

/-! ## PolyphonyManager::softLimit (PolyphonyManager.cpp lines 370-388)

The third branch (|x| above threshold + knee) calls `std::tanh`; it is
never reached for |x| ≤ 1, so the transcendental is a parameter. -/

def softLimit (tanh : ℚ → ℚ) (sample : ℚ) : ℚ :=
  let threshold : ℚ := 8/10
  let knee : ℚ := 2/10
  let absSample := |sample|
  if absSample ≤ threshold then
    sample
  else if absSample ≤ threshold + knee then
    let excess := absSample - threshold
    let compressed := threshold + excess * (1 - excess / (2 * knee))
    if sample > 0 then compressed else -compressed
  else
    let excess := absSample - threshold - knee
    let limited := threshold + knee * (1/2) +
      (1 - threshold - knee * (1/2)) * tanh (excess * 2)
    if sample > 0 then limited else -limited

/-- The knee formula exactly as the spec words it:
`sign(x)·(0.8 + 0.2·(1 − excess/(2·knee)))` with `excess = |x| − 0.8`,
`knee = 0.2`.  Kept separate so it can be compared with the source
function `softLimit`. -/
def specKneeFormula (x : ℚ) : ℚ :=
  (if x > 0 then (1 : ℚ) else -1) *
    (8/10 + (2/10) * (1 - (|x| - 8/10) / (2 * (2/10))))

/-! ## Filter::calculateLPFCoefficients resonance-to-Q map
(Filter.cpp lines 123-134) -/

/-- The resonance-to-Q mapping: `0.707 + 15·res` below the 0.95 seam,
then a ramp `15 + 35·(res − 0.95)/0.05` to 50 over the last 5%. -/
def resonanceToQ (res : ℚ) : ℚ :=
  if res < 95/100 then 707/1000 + res * 15
  else 15 + ((res - 95/100) / (5/100)) * 35

/-- The low branch of `resonanceToQ` as a total (affine, hence
continuous) function, used to speak about its one-sided limit at the
seam. -/
def lowPieceQ (res : ℚ) : ℚ := 707/1000 + res * 15

/-! ## DrumMachine pattern state (DrumMachine.cpp lines 38-81)

Only the pattern arrays are touched by `setStep` / `getStep` /
`toggleStep`; the sequencer and volume fields of the C++ class are
untouched by those member functions and are omitted. -/

structure DrumMachine where
  kickPattern : List ℚ
  snarePattern : List ℚ
  hiHatPattern : List ℚ
  deriving DecidableEq

def KICK : Int := 0
def SNARE : Int := 1
def HIHAT : Int := 2
def NUM_INSTRUMENTS : Int := 3
def NUM_STEPS : Int := 16

def isValidInstrument (instrument : Int) : Bool :=
  instrument ≥ 0 && instrument < NUM_INSTRUMENTS

def isValidStep (step : Int) : Bool :=
  step ≥ 0 && step < NUM_STEPS

def DrumMachine.setStep (dm : DrumMachine) (instrument step : Int)
    (velocity : ℚ) : DrumMachine :=
  if !(isValidInstrument instrument) || !(isValidStep step) then dm
  else
    let clampedVel := max 0 (min 1 velocity)
    if instrument = KICK then
      { dm with kickPattern := dm.kickPattern.set step.toNat clampedVel }
    else if instrument = SNARE then
      { dm with snarePattern := dm.snarePattern.set step.toNat clampedVel }
    else if instrument = HIHAT then
      { dm with hiHatPattern := dm.hiHatPattern.set step.toNat clampedVel }
    else dm

def DrumMachine.getStep (dm : DrumMachine) (instrument step : Int) : ℚ :=
  if !(isValidInstrument instrument) || !(isValidStep step) then 0
  else if instrument = KICK then dm.kickPattern.getD step.toNat 0
  else if instrument = SNARE then dm.snarePattern.getD step.toNat 0
  else if instrument = HIHAT then dm.hiHatPattern.getD step.toNat 0
  else 0

def DrumMachine.toggleStep (dm : DrumMachine) (instrument step : Int) :
    DrumMachine :=
  if !(isValidInstrument instrument) || !(isValidStep step) then dm
  else
    let currentVel := dm.getStep instrument step
    let newVel : ℚ := if currentVel > 0 then 0 else 1
    dm.setStep instrument step newVel

/-- A concrete pattern state: the default hi-hat groove values placed
in the kick row (so step 1 holds 0.5), used by the C8 witness. -/
def dmHalf : DrumMachine :=
  ⟨[1, 1/2, 7/10, 2/5, 9/10, 1/2, 3/5, 2/5, 1, 1/2, 7/10, 2/5, 9/10,
    1/2, 3/5, 9/20], List.replicate 16 0, List.replicate 16 0⟩

def dmZero : DrumMachine :=
  ⟨List.replicate 16 0, List.replicate 16 0, List.replicate 16 0⟩

/-! ## AudioEngine::onAudioReady mixing stage (AudioEngine.cpp lines 805-838)

The per-frame source values (synth render after FX/volume, looper
output, drum machine sample, metronome sample) are produced by the
stateful subsystems upstream of the mix; for the mix-stage claims they
are taken as the per-frame inputs of the stage. -/

structure FrameSources where
  synthL : ℚ
  synthR : ℚ
  loopL : ℚ
  loopR : ℚ
  drumSample : ℚ
  metronomeSample : ℚ
  deriving DecidableEq

def SYNTH_GAIN : ℚ := 9/100
def DRUM_GAIN : ℚ := 108/100

/-- One frame of the gain-staging / clip stage: returns the
`(finalL, finalR)` pair written to the interleaved buffer. -/
def mixFrame (f : FrameSources) (metronomeVolume : ℚ) : ℚ × ℚ :=
  let synthMixL := (f.synthL + f.loopL) * SYNTH_GAIN
  let synthMixR := (f.synthR + f.loopR) * SYNTH_GAIN
  let drumMix := f.drumSample * DRUM_GAIN
  let metroMix := f.metronomeSample * metronomeVolume
  let finalL := synthMixL + drumMix + metroMix
  let finalR := synthMixR + drumMix + metroMix
  (clampQ finalL (-1) 1, clampQ finalR (-1) 1)

/-- The frame loop of `onAudioReady`: `output[2i] = finalL`,
`output[2i+1] = finalR` for each frame `i`. -/
def renderInterleaved (frames : List FrameSources) (metronomeVolume : ℚ) :
    List ℚ :=
  frames.flatMap fun f =>
    [(mixFrame f metronomeVolume).1, (mixFrame f metronomeVolume).2]

def zeroFrame : FrameSources :=
  ⟨0, 0, 0, 0, 0, 0⟩

/-! ## Shared-state access trace of AudioEngine::onAudioReady
(AudioEngine.cpp lines 696-841)

To settle the locking claim the callback is abstracted to the sequence
of parameter-mutex operations, engine-parameter-field reads and output
writes it performs.  The callback body contains no `lock_guard` (the
mutex is taken only by the control-surface setters), and it reads
`mWurlitzerMode` (line 709), `mSynthVolume` (lines 736, 737),
`mDrumEnabledByUser` (line 797) and `mMetronomeVolume` (line 822)
inside the per-frame loop. -/

inductive ParamField
  | wurlitzerMode
  | synthVolume
  | drumEnabledByUser
  | metronomeVolume
  deriving DecidableEq

inductive CallbackEvent
  | lockAcquire
  | lockRelease
  | paramRead (field : ParamField)
  | outputWrite (index : Nat)
  deriving DecidableEq

/-- Events of one iteration of the frame loop, in source order. -/
def frameEvents (i : Nat) : List CallbackEvent :=
  [.paramRead .wurlitzerMode,
   .paramRead .synthVolume, .paramRead .synthVolume,
   .paramRead .drumEnabledByUser,
   .paramRead .metronomeVolume,
   .outputWrite (2 * i), .outputWrite (2 * i + 1)]

/-- The whole callback trace for a buffer of `numFrames` frames. -/
def callbackTrace (numFrames : Nat) : List CallbackEvent :=
  (List.range numFrames).flatMap frameEvents

/-! ## Looper (Looper.h / Looper.cpp)

Positions and sample counts are C++ `int` / `int64_t`, modelled as
`Int`.  The float timing computation `(60/BPM)·Fs` truncated to `int`
is modelled as the rational product floored (all quantities positive).
`Looper.cpp` computes the loop length as `mSamplesPerBar *
BARS_TO_RECORD`; the bar count lives in the header member
`mBarsToRecord` (default `DEFAULT_BARS = 4`), which is what the
identifier resolves to here. -/

def MAX_TRACKS : Int := 4
def PRE_COUNT_BEATS : Int := 4
def BEATS_PER_BAR : Int := 4
def DEFAULT_BARS : Int := 4

inductive LooperState
  | IDLE
  | PRE_COUNT
  | RECORDING
  | STOPPED
  | PLAYING
  deriving DecidableEq

structure LoopTrack where
  bufferL : List ℚ
  bufferR : List ℚ
  hasContent : Bool
  volume : ℚ
  muted : Bool
  solo : Bool
  deriving DecidableEq

def defaultLoopTrack : LoopTrack :=
  { bufferL := [], bufferR := [], hasContent := false,
    volume := 7/10, muted := false, solo := false }

structure Looper where
  state : LooperState
  sampleRate : ℚ
  bpm : ℚ
  barsToRecord : Int
  tracks : List LoopTrack
  activeRecordingTrack : Int
  samplesPerBeat : Int
  samplesPerBar : Int
  loopLengthSamples : Int
  loopLengthLocked : Bool
  recordPosition : Int
  playbackPosition : Int
  preCountPosition : Int
  currentBeat : Int
  currentBar : Int
  deriving DecidableEq

namespace Looper

def isValidTrackIndex (index : Int) : Bool :=
  index ≥ 0 && index < MAX_TRACKS

/-- Track accessor: `mTracks[i]`. -/
def track (s : Looper) (i : Nat) : LoopTrack :=
  s.tracks.getD i defaultLoopTrack

def setTrack (s : Looper) (i : Nat) (t : LoopTrack) : Looper :=
  { s with tracks := s.tracks.set i t }

def updateTiming (s : Looper) : Looper :=
  let secondsPerBeat : ℚ := 60 / s.bpm
  let samplesPerBeat : Int := ⌊secondsPerBeat * s.sampleRate⌋
  let samplesPerBar : Int := samplesPerBeat * BEATS_PER_BAR
  let s := { s with samplesPerBeat := samplesPerBeat,
                    samplesPerBar := samplesPerBar }
  if !s.loopLengthLocked then
    { s with loopLengthSamples := s.samplesPerBar * s.barsToRecord }
  else s

def setSampleRate (s : Looper) (sampleRate : ℚ) : Looper :=
  updateTiming { s with sampleRate := sampleRate }

def setBPM (s : Looper) (bpm : ℚ) : Looper :=
  updateTiming { s with bpm := max 30 (min 300 bpm) }

def startRecordingTrack (s : Looper) (trackIndex : Int) : Looper :=
  if !isValidTrackIndex trackIndex then s
  else if (s.track trackIndex.toNat).hasContent then s
  else if s.state = .RECORDING ∨ s.state = .PRE_COUNT then s
  else
    let s := if !s.loopLengthLocked then s.updateTiming else s
    let n := s.loopLengthSamples.toNat
    let s := s.setTrack trackIndex.toNat
      { s.track trackIndex.toNat with
          bufferL := List.replicate n 0, bufferR := List.replicate n 0 }
    { s with activeRecordingTrack := trackIndex,
             state := .PRE_COUNT,
             preCountPosition := 0,
             recordPosition := 0,
             currentBeat := 0,
             currentBar := 0 }

def startRecording (s : Looper) : Looper :=
  s.startRecordingTrack 0

def stopPlayback (s : Looper) : Looper :=
  if s.state = .PLAYING then
    { s with state := .STOPPED, playbackPosition := 0 }
  else s

def hasAnyLoop (s : Looper) : Bool :=
  s.tracks.any (·.hasContent)

def startPlayback (s : Looper) : Looper :=
  if s.hasAnyLoop ∧ s.state = .STOPPED then
    { s with state := .PLAYING, playbackPosition := 0,
             currentBeat := 0, currentBar := 0 }
  else s

def setTrackVolume (s : Looper) (trackIndex : Int) (volume : ℚ) : Looper :=
  if isValidTrackIndex trackIndex then
    s.setTrack trackIndex.toNat
      { s.track trackIndex.toNat with volume := max 0 (min 1 volume) }
  else s

def setTrackMuted (s : Looper) (trackIndex : Int) (muted : Bool) : Looper :=
  if isValidTrackIndex trackIndex then
    s.setTrack trackIndex.toNat { s.track trackIndex.toNat with muted := muted }
  else s

def setTrackSolo (s : Looper) (trackIndex : Int) (solo : Bool) : Looper :=
  if isValidTrackIndex trackIndex then
    s.setTrack trackIndex.toNat { s.track trackIndex.toNat with solo := solo }
  else s

def clearTrack (s : Looper) (trackIndex : Int) : Looper :=
  if !isValidTrackIndex trackIndex then s
  else if s.activeRecordingTrack = trackIndex ∧
          (s.state = .PRE_COUNT ∨ s.state = .RECORDING) then s
  else
    let s := s.setTrack trackIndex.toNat
      { bufferL := [], bufferR := [], hasContent := false,
        volume := 7/10, muted := false, solo := false }
    if !s.hasAnyLoop then
      { s with state := .IDLE, loopLengthLocked := false,
               playbackPosition := 0 }
    else s

def clearAllTracks (s : Looper) : Looper :=
  let s := if s.state = .PLAYING then s.stopPlayback else s
  let s := { s with tracks := s.tracks.map fun _ =>
    { bufferL := [], bufferR := [], hasContent := false,
      volume := 7/10, muted := false, solo := false } }
  { s with state := .IDLE, activeRecordingTrack := -1,
           loopLengthLocked := false, playbackPosition := 0,
           recordPosition := 0, currentBeat := 0, currentBar := 0 }

def clearLoop (s : Looper) : Looper :=
  s.clearAllTracks

def anySolo (s : Looper) : Bool :=
  s.tracks.any fun t => t.hasContent && t.solo

/-- `updateBeatBar` (Looper.cpp lines 359-372). -/
def updateBeatBar (s : Looper) : Looper :=
  let position := if s.state = .RECORDING then s.recordPosition
                  else s.playbackPosition
  if s.samplesPerBeat ≤ 0 then s
  else
    let totalBeats := position / s.samplesPerBeat
    let newBar := totalBeats / BEATS_PER_BAR
    let newBeat := totalBeats % BEATS_PER_BAR
    { s with currentBeat := newBeat, currentBar := newBar }

/-- Sum over tracks of `buffer[pos]·vol` for the tracks that pass the
content / mute / solo gates and whose buffer extends past `pos`,
skipping index `skip` (−1 to skip none).  Shared by the three playback
loops of `Looper::process`. -/
def mixTracksAt (tracks : List LoopTrack) (hasSolo : Bool) (pos : Int)
    (skip : Int) : ℚ × ℚ :=
  (List.range tracks.length).foldl
    (fun acc i =>
      let t := tracks.getD i defaultLoopTrack
      if (i : Int) = skip then acc
      else if !t.hasContent then acc
      else if t.muted then acc
      else if hasSolo && !t.solo then acc
      else if pos < (t.bufferL.length : Int) ∧ 0 ≤ pos then
        (acc.1 + t.bufferL.getD pos.toNat 0 * t.volume,
         acc.2 + t.bufferR.getD pos.toNat 0 * t.volume)
      else acc)
    (0, 0)

/-- The PRE_COUNT case of `Looper::process` (Looper.cpp lines
235-281). -/
def processPreCount (s : Looper) : Looper × ℚ × ℚ :=
  let out := if s.hasAnyLoop then
               mixTracksAt s.tracks s.anySolo s.playbackPosition (-1)
             else (0, 0)
  let s :=
    if s.hasAnyLoop then
      let s := { s with playbackPosition := s.playbackPosition + 1 }
      if s.loopLengthSamples > 0 ∧
         s.playbackPosition ≥ s.loopLengthSamples then
        { s with playbackPosition := 0 }
      else s
    else s
  let s := { s with preCountPosition := s.preCountPosition + 1 }
  let beatInPreCount : Int := s.preCountPosition / s.samplesPerBeat
  let s := if beatInPreCount ≠ s.currentBeat then
             { s with currentBeat := beatInPreCount }
           else s
  let s := if s.preCountPosition ≥ s.samplesPerBeat * PRE_COUNT_BEATS then
             { s with state := .RECORDING, recordPosition := 0,
                      currentBeat := 0, currentBar := 0,
                      playbackPosition := 0 }
           else s
  (s, out)

/-- First step of the RECORDING case: write the incoming synth sample
into the active track at the record position (guarded on a valid index
and an in-range position). -/
def recordWrite (s : Looper) (synthL synthR : ℚ) : Looper :=
  if isValidTrackIndex s.activeRecordingTrack ∧
     s.recordPosition < s.loopLengthSamples then
    let i := s.activeRecordingTrack.toNat
    s.setTrack i
      { s.track i with
          bufferL := (s.track i).bufferL.set s.recordPosition.toNat synthL,
          bufferR := (s.track i).bufferR.set s.recordPosition.toNat synthR }
  else s

/-- Completion step of the RECORDING case: mark content, lock the loop
length, stop. -/
def recordFinish (s : Looper) : Looper :=
  let i := s.activeRecordingTrack.toNat
  { s.setTrack i { s.track i with hasContent := true } with
      loopLengthLocked := true, state := .STOPPED,
      activeRecordingTrack := -1, playbackPosition := 0,
      currentBeat := 0, currentBar := 0 }

/-- The RECORDING case of `Looper::process` (Looper.cpp lines
283-322). -/
def processRecording (s : Looper) (synthL synthR : ℚ) : Looper × ℚ × ℚ :=
  let s1 := s.recordWrite synthL synthR
  let out := mixTracksAt s1.tracks s1.anySolo s1.recordPosition
    s1.activeRecordingTrack
  let s2 := { s1 with recordPosition := s1.recordPosition + 1 }
  let s3 := s2.updateBeatBar
  let s4 := if s3.recordPosition ≥ s3.loopLengthSamples then s3.recordFinish
            else s3
  (s4, out)

/-- The PLAYING case of `Looper::process` (Looper.cpp lines 324-349). -/
def processPlaying (s : Looper) : Looper × ℚ × ℚ :=
  let out := mixTracksAt s.tracks s.anySolo s.playbackPosition (-1)
  let s := { s with playbackPosition := s.playbackPosition + 1 }
  let s := s.updateBeatBar
  let s := if s.playbackPosition ≥ s.loopLengthSamples then
             { s with playbackPosition := 0, currentBeat := 0,
                      currentBar := 0 }
           else s
  (s, out)

/-- `Looper::process` (Looper.cpp lines 230-357).  Returns the updated
looper and the `(loopOutL, loopOutR)` pair. -/
def process (s : Looper) (synthL synthR : ℚ) : Looper × ℚ × ℚ :=
  match s.state with
  | .PRE_COUNT => s.processPreCount
  | .RECORDING => s.processRecording synthL synthR
  | .PLAYING => s.processPlaying
  | _ => (s, 0, 0)

/-- Modelled from the spec: `Looper::cancelRecording` is declared in
`Looper.h` and called from `AudioEngine.cpp`, but its definition is not
under `src/`.  Spec §4.12: "recording —cancelRecording()→ stopped/idle,
discard trk content"; §5: "atomically transitions pre-count|recording →
stopped/idle". -/
def cancelRecording (s : Looper) : Looper :=
  if s.state = .PRE_COUNT ∨ s.state = .RECORDING then
    let s :=
      if isValidTrackIndex s.activeRecordingTrack then
        s.setTrack s.activeRecordingTrack.toNat
          { s.track s.activeRecordingTrack.toNat with
              bufferL := [], bufferR := [], hasContent := false }
      else s
    { s with state := if s.hasAnyLoop then .STOPPED else .IDLE,
             activeRecordingTrack := -1, recordPosition := 0 }
  else s

/-- The `Looper()` constructor: default members, then `updateTiming()`. -/
def init : Looper :=
  updateTiming
    { state := .IDLE, sampleRate := 48000, bpm := 100,
      barsToRecord := DEFAULT_BARS,
      tracks := List.replicate 4 defaultLoopTrack,
      activeRecordingTrack := -1,
      samplesPerBeat := 0, samplesPerBar := 0, loopLengthSamples := 0,
      loopLengthLocked := false,
      recordPosition := 0, playbackPosition := 0, preCountPosition := 0,
      currentBeat := 0, currentBar := 0 }

/-- `process` iterated with silent input, as used to state the loop
period. -/
def processIter (k : Nat) (s : Looper) : Looper :=
  match k with
  | 0 => s
  | k + 1 => ((processIter k s).process 0 0).1

/-- C10 inductive invariant: the looper's track list has its fixed
arity, the loop length is locked only when some track has content, and
during PRE_COUNT / RECORDING the active track index is valid and the
active track has no content yet. -/
def looperInv (s : Looper) : Prop :=
  s.tracks.length = 4 ∧
  (s.loopLengthLocked = true → s.hasAnyLoop = true) ∧
  ((s.state = .PRE_COUNT ∨ s.state = .RECORDING) →
    isValidTrackIndex s.activeRecordingTrack = true ∧
    (s.track s.activeRecordingTrack.toNat).hasContent = false)

/-- A concrete looper state for the Looper witnesses: track 0 has
content, loop length 4 locked, 1 sample per beat, stopped. -/
def sWitness : Looper :=
  { state := .STOPPED, sampleRate := 48000, bpm := 100,
    barsToRecord := 1,
    tracks := [⟨[1, 2, 3, 4], [5, 6, 7, 8], true, 1, false, false⟩,
               defaultLoopTrack, defaultLoopTrack, defaultLoopTrack],
    activeRecordingTrack := -1,
    samplesPerBeat := 1, samplesPerBar := 4, loopLengthSamples := 4,
    loopLengthLocked := true,
    recordPosition := 0, playbackPosition := 0, preCountPosition := 0,
    currentBeat := 0, currentBar := 0 }

/-- `sWitness` switched to playback. -/
def sPlaying : Looper :=
  { sWitness with state := .PLAYING }

/-- A looper one frame away from completing a 4-sample recording on
track 0 (1 bar, 1 sample per beat). -/
def sRecording : Looper :=
  { state := .RECORDING, sampleRate := 48000, bpm := 100,
    barsToRecord := 1,
    tracks := [⟨[0, 0, 0, 0], [0, 0, 0, 0], false, 1, false, false⟩,
               defaultLoopTrack, defaultLoopTrack, defaultLoopTrack],
    activeRecordingTrack := 0,
    samplesPerBeat := 1, samplesPerBar := 4, loopLengthSamples := 4,
    loopLengthLocked := false,
    recordPosition := 3, playbackPosition := 0, preCountPosition := 0,
    currentBeat := 0, currentBar := 0 }

end Looper

/-! ## PolyphonyManager voice allocation (PolyphonyManager.cpp)

A voice is modelled by the fields the allocator reads and writes:
MIDI-note binding, state, frequency and the cents value handed to
`setDetune`.  `applyParamsToVoice` copies the parameter snapshot
(waveforms, filter, ADSR, glide) into the voice; none of those fields
feed back into allocation, so they are not carried.  `mVoiceAge` is
`uint64_t`; ages here are `Nat` (each age is at most the number of
noteOns, far below the 2^64 wrap), with the `UINT64_MAX` sentinel of
`stealOldestVoice` kept as `2^64 − 1`. -/

inductive VoiceState
  | IDLE
  | ACTIVE
  | RELEASING
  deriving DecidableEq

structure Voice where
  midiNote : Int
  frequency : ℚ
  detuneCents : ℚ
  vstate : VoiceState
  deriving DecidableEq

def Voice.isActive (v : Voice) : Bool :=
  v.vstate ≠ .IDLE

/-- `Voice::noteOn`: binds the note and gates the envelopes
(state becomes ACTIVE). -/
def Voice.noteOn (v : Voice) (midiNote : Int) (frequency : ℚ) : Voice :=
  { v with midiNote := midiNote, frequency := frequency, vstate := .ACTIVE }

/-- `Voice::noteOff`. -/
def Voice.noteOff (v : Voice) : Voice :=
  { v with vstate := .RELEASING }

def Voice.setDetune (v : Voice) (cents : ℚ) : Voice :=
  { v with detuneCents := cents }

def defaultVoice : Voice :=
  { midiNote := -1, frequency := 440, detuneCents := 0, vstate := .IDLE }

def MAX_POLYPHONY : Int := 12

structure PolyphonyManager where
  voices : List Voice
  voiceAge : List Nat
  ageCounter : Nat
  unisonEnabled : Bool
  unisonVoices : Int
  unisonDetune : ℚ
  unisonNoteVoices : List Int
  deriving DecidableEq

namespace PolyphonyManager

def voice (pm : PolyphonyManager) (i : Nat) : Voice :=
  pm.voices.getD i defaultVoice

def age (pm : PolyphonyManager) (i : Nat) : Nat :=
  pm.voiceAge.getD i 0

/-- Write voice `i`, bump its age to `++mAgeCounter`. -/
def assign (pm : PolyphonyManager) (i : Nat) (v : Voice) : PolyphonyManager :=
  { pm with voices := pm.voices.set i v,
            voiceAge := pm.voiceAge.set i (pm.ageCounter + 1),
            ageCounter := pm.ageCounter + 1 }

/-- `findVoiceWithNote`: first voice bound to `midiNote` and not idle,
else −1. -/
def findVoiceWithNote (pm : PolyphonyManager) (midiNote : Int) : Int :=
  match (List.range MAX_POLYPHONY.toNat).find? fun i =>
      (pm.voice i).midiNote == midiNote && (pm.voice i).isActive with
  | some i => (i : Int)
  | none => -1

/-- `findFreeVoice`: first idle voice, else −1. -/
def findFreeVoice (pm : PolyphonyManager) : Int :=
  match (List.range MAX_POLYPHONY.toNat).find? fun i =>
      !(pm.voice i).isActive with
  | some i => (i : Int)
  | none => -1

/-- `stealOldestVoice`: index of the (first) minimum of `mVoiceAge`,
scanning with the `UINT64_MAX` sentinel. -/
def stealOldestVoice (pm : PolyphonyManager) : Int :=
  ((List.range MAX_POLYPHONY.toNat).foldl
    (fun acc i =>
      if pm.age i < acc.1 then (pm.age i, (i : Int)) else acc)
    (2 ^ 64 - 1, 0)).2

/-- `calculateUnisonDetune`. -/
def calculateUnisonDetune (pm : PolyphonyManager) (voiceIndex totalVoices : Int) : ℚ :=
  if totalVoices ≤ 1 then 0
  else
    let spread := pm.unisonDetune
    let step := spread * 2 / ((totalVoices : ℚ) - 1);
    -spread + step * (voiceIndex : ℚ)

/-- `noteOnUnison` (PolyphonyManager.cpp lines 239-276). -/
def noteOnUnison (pm : PolyphonyManager) (midiNote : Int) (frequency : ℚ) :
    PolyphonyManager :=
  let voicesToUse := min pm.unisonVoices MAX_POLYPHONY
  if (List.range MAX_POLYPHONY.toNat).any (fun i =>
      (pm.voice i).midiNote == midiNote && (pm.voice i).isActive) then
    (List.range MAX_POLYPHONY.toNat).foldl
      (fun pm j =>
        if (pm.voice j).midiNote == midiNote then
          pm.assign j ((pm.voice j).noteOn midiNote frequency)
        else pm)
      pm
  else
    (List.range voicesToUse.toNat).foldl
      (fun pm v =>
        let voiceIndex :=
          if pm.findFreeVoice < 0 then pm.stealOldestVoice
          else pm.findFreeVoice
        let i := voiceIndex.toNat
        let detune := pm.calculateUnisonDetune (v : Int) voicesToUse
        let pm := pm.assign i
          (((pm.voice i).setDetune detune).noteOn midiNote frequency)
        { pm with unisonNoteVoices := pm.unisonNoteVoices.set i midiNote })
      pm

/-- `PolyphonyManager::noteOn` (PolyphonyManager.cpp lines 25-50). -/
def noteOn (pm : PolyphonyManager) (midiNote : Int) (frequency : ℚ) :
    PolyphonyManager :=
  if pm.unisonEnabled then pm.noteOnUnison midiNote frequency
  else
    let existingVoice := pm.findVoiceWithNote midiNote
    if existingVoice ≥ 0 then
      pm.assign existingVoice.toNat
        ((pm.voice existingVoice.toNat).noteOn midiNote frequency)
    else
      let free := pm.findFreeVoice
      let voiceIndex := if free < 0 then pm.stealOldestVoice else free
      let i := voiceIndex.toNat
      pm.assign i (((pm.voice i).setDetune 0).noteOn midiNote frequency)

/-- `PolyphonyManager::noteOff` (non-unison path releases every ACTIVE
voice bound to the note). -/
def noteOff (pm : PolyphonyManager) (midiNote : Int) : PolyphonyManager :=
  if pm.unisonEnabled then
    { pm with
        voices := pm.voices.map fun v =>
          if v.midiNote == midiNote ∧ v.vstate = .ACTIVE then v.noteOff else v,
        unisonNoteVoices := (List.range pm.unisonNoteVoices.length).map
          fun i =>
            if (pm.voice i).midiNote == midiNote ∧
               (pm.voice i).vstate = .ACTIVE then -1
            else pm.unisonNoteVoices.getD i (-1) }
  else
    { pm with
        voices := pm.voices.map fun v =>
          if v.midiNote == midiNote ∧ v.vstate = .ACTIVE then v.noteOff else v }

/-- The `PolyphonyManager()` constructor state (all voices idle, ages
zero). -/
def init : PolyphonyManager :=
  { voices := List.replicate 12 defaultVoice,
    voiceAge := List.replicate 12 0,
    ageCounter := 0,
    unisonEnabled := false,
    unisonVoices := 3,
    unisonDetune := 10,
    unisonNoteVoices := List.replicate 12 (-1) }

/-- Scenario for the C2 witness: 12 distinct simultaneous noteOns
(MIDI 60..71) on a fresh manager, filling all 12 voices. -/
def pmScenario : PolyphonyManager :=
  (List.range 12).foldl (fun pm k => pm.noteOn (60 + (k : Int)) 440) init

end PolyphonyManager

/-! ## Theorems -/

/-- C5, counterexample: at x = 0.9 the source soft limiter returns
7/8 = 0.875 — `0.8 + excess·(1 − excess/(2·knee))` — whereas the
formula claimed, `sign(x)·(0.8 + 0.2·(1 − excess/(2·knee)))`, gives
19/20 = 0.95.  (The tanh tail is irrelevant below |x| = 1; `id` stands
in for it.) -/
theorem softLimit_knee_counterexample :
    softLimit id (9/10) = 7/8 ∧ specKneeFormula (9/10) = 19/20 ∧
    softLimit id (9/10) ≠ specKneeFormula (9/10) := by
  refine ⟨?_, ?_, ?_⟩ <;> norm_num [softLimit, specKneeFormula, abs]

/-- C5 (amended): for |x| ≤ 0.8 the PolyphonyManager soft limiter
returns x unchanged, and for 0.8 < |x| ≤ 1.0 it returns
sign(x)·(0.8 + excess·(1 − excess/(2·knee))) with excess = |x| − 0.8
and knee = 0.2 (the whole excess, not the constant 0.2, multiplies the
knee factor). -/
theorem softLimit_knee (tanh : ℚ → ℚ) (x : ℚ) :
    (|x| ≤ 8/10 → softLimit tanh x = x) ∧
    (8/10 < |x| → |x| ≤ 1 →
      softLimit tanh x = (if x > 0 then (1 : ℚ) else -1) *
        (8/10 + (|x| - 8/10) * (1 - (|x| - 8/10) / (2 * (2/10))))) := by
  constructor
  · intro h
    simp [softLimit, h]
  · intro h1 h2
    have hn : ¬ (|x| ≤ 8/10) := not_le.mpr h1
    have h2' : |x| ≤ 8/10 + 2/10 := by linarith
    simp only [softLimit, if_neg hn, if_pos h2']
    split <;> ring

/-- Witness for C5 amended theorem at x = 9/10 (with the tanh tail
instantiated to `id`). -/
theorem softLimit_knee_witness :
    (8/10 : ℚ) < |(9/10 : ℚ)| ∧ |(9/10 : ℚ)| ≤ 1 ∧
    softLimit id (9/10) = (if (9/10 : ℚ) > 0 then (1 : ℚ) else -1) *
      (8/10 + (|(9/10 : ℚ)| - 8/10) *
        (1 - (|(9/10 : ℚ)| - 8/10) / (2 * (2/10)))) :=
  ⟨by norm_num [abs], by norm_num [abs],
   (softLimit_knee id (9/10)).2 (by norm_num [abs]) (by norm_num [abs])⟩

/-- C6, counterexample: the low branch of the resonance-to-Q map is
affine, so its limit at the seam res = 0.95 is its value there,
0.707 + 15·0.95 = 14.957; the ramp branch starts at 15, so the two
pieces do not meet. -/
theorem resonanceToQ_seam_counterexample :
    lowPieceQ (95/100) = 14957/1000 ∧ resonanceToQ (95/100) = 15 ∧
    lowPieceQ (95/100) ≠ resonanceToQ (95/100) := by
  refine ⟨?_, ?_, ?_⟩ <;> norm_num [lowPieceQ, resonanceToQ]

/-- C6 (amended): the resonance-to-Q mapping is *not* C⁰ at the seam:
its left limit at res = 0.95 is 14.957 while its value there is 15, a
jump of 0.043. -/
theorem resonanceToQ_seam_jump :
    Filter.Tendsto resonanceToQ (nhdsWithin (95/100) (Set.Iio (95/100)))
      (nhds (14957/1000)) ∧
    resonanceToQ (95/100) = 15 ∧ (15 : ℚ) - 14957/1000 = 43/1000 := by
  refine ⟨?_, by norm_num [resonanceToQ], by norm_num⟩
  have hcont : Continuous lowPieceQ := by
    unfold lowPieceQ
    fun_prop
  have hval : lowPieceQ (95/100) = 14957/1000 := by norm_num [lowPieceQ]
  have h1 : Filter.Tendsto lowPieceQ
      (nhdsWithin (95/100) (Set.Iio (95/100))) (nhds (14957/1000)) := by
    rw [← hval]
    exact (hcont.tendsto (95/100)).mono_left nhdsWithin_le_nhds
  refine Filter.Tendsto.congr' ?_ h1
  filter_upwards [self_mem_nhdsWithin] with r hr
  have : r < 95/100 := hr
  simp [lowPieceQ, resonanceToQ, if_pos this]

/-- C9, counterexample: for a one-frame buffer the callback performs
zero acquisitions of the parameter mutex, not the single
start-of-buffer acquisition claimed. -/
theorem callback_lock_counterexample :
    (callbackTrace 1).count CallbackEvent.lockAcquire = 0 ∧
    (callbackTrace 1).count CallbackEvent.lockAcquire ≠ 1 := by
  constructor <;> decide

/-- C9 (amended): the audio callback never touches the parameter
mutex, and instead of snapshotting once per buffer it re-reads each
engine parameter field inside the per-sample loop — once per frame for
`mWurlitzerMode`, `mDrumEnabledByUser` and `mMetronomeVolume`, twice
per frame for `mSynthVolume`. -/
theorem callback_no_lock_reads_per_frame (n : Nat) :
    (callbackTrace n).count CallbackEvent.lockAcquire = 0 ∧
    (callbackTrace n).count CallbackEvent.lockRelease = 0 ∧
    (callbackTrace n).count (CallbackEvent.paramRead .wurlitzerMode) = n ∧
    (callbackTrace n).count (CallbackEvent.paramRead .synthVolume) = 2 * n ∧
    (callbackTrace n).count (CallbackEvent.paramRead .drumEnabledByUser) = n ∧
    (callbackTrace n).count (CallbackEvent.paramRead .metronomeVolume) = n := by
  induction n with
  | zero => simp [callbackTrace]
  | succ m ih =>
    have hr : List.range (m + 1) = List.range m ++ [m] := List.range_succ m
    obtain ⟨ih1, ih2, ih3, ih4, ih5, ih6⟩ := ih
    refine ⟨?_, ?_, ?_, ?_, ?_, ?_⟩ <;>
      simp only [callbackTrace, hr, List.flatMap_append, List.count_append] <;>
      simp_all [callbackTrace, frameEvents, List.count_cons] <;> omega

theorem list_getD_set_self {α : Type} (l : List α) (i : Nat) (a d : α)
    (h : i < l.length) : (l.set i a).getD i d = a := by
  simp [List.getD, List.getElem?_set_self, h]

theorem list_getD_set_ne {α : Type} (l : List α) (i j : Nat) (a d : α)
    (h : i ≠ j) : (l.set i a).getD j d = l.getD j d := by
  simp [List.getD, List.getElem?_set_ne, h]

/-- `getStep` after `setStep` at the same (valid) instrument/step reads
back the clamped velocity. -/
theorem getStep_setStep (dm : DrumMachine) (instrument step : Int) (v : ℚ)
    (hk : dm.kickPattern.length = 16) (hs : dm.snarePattern.length = 16)
    (hh : dm.hiHatPattern.length = 16)
    (hI : isValidInstrument instrument = true)
    (hS : isValidStep step = true) :
    (dm.setStep instrument step v).getStep instrument step =
      max 0 (min 1 v) := by
  have hI' : instrument = 0 ∨ instrument = 1 ∨ instrument = 2 := by
    simp [isValidInstrument, NUM_INSTRUMENTS] at hI
    omega
  have hS' : step.toNat < 16 := by
    simp [isValidStep, NUM_STEPS] at hS
    omega
  rcases hI' with h | h | h <;>
    subst h <;>
    simp [DrumMachine.setStep, DrumMachine.getStep, hI, hS, KICK, SNARE,
      HIHAT, list_getD_set_self, hk, hs, hh, hS']

/-- `setStep` leaves the pattern lengths at 16. -/
theorem setStep_lengths (dm : DrumMachine) (instrument step : Int) (v : ℚ)
    (hk : dm.kickPattern.length = 16) (hs : dm.snarePattern.length = 16)
    (hh : dm.hiHatPattern.length = 16) :
    (dm.setStep instrument step v).kickPattern.length = 16 ∧
    (dm.setStep instrument step v).snarePattern.length = 16 ∧
    (dm.setStep instrument step v).hiHatPattern.length = 16 := by
  unfold DrumMachine.setStep
  split
  · exact ⟨hk, hs, hh⟩
  · split
    · simpa using ⟨hk, hs, hh⟩
    · split
      · simpa using ⟨hk, hs, hh⟩
      · split
        · simpa using ⟨hk, hs, hh⟩
        · exact ⟨hk, hs, hh⟩

/-- `toggleStep` on a valid cell rewrites it through `setStep` with the
flipped velocity. -/
theorem toggleStep_eq (dm : DrumMachine) (instrument step : Int)
    (hI : isValidInstrument instrument = true)
    (hS : isValidStep step = true) :
    dm.toggleStep instrument step =
      dm.setStep instrument step
        (if dm.getStep instrument step > 0 then 0 else 1) := by
  simp [DrumMachine.toggleStep, hI, hS]

/-- C8: for every instrument in {kick, snare, hi-hat} and step in
[0..15], with the stored velocity v (always in [0,1] since `setStep`
clamps): two `toggleStep`s return the cell to v when v ∈ {0, 1};
otherwise the first `toggleStep` zeroes the cell and the second sets
it to 1. -/
theorem toggleStep_twice (dm : DrumMachine) (instrument step : Int) (v : ℚ)
    (hk : dm.kickPattern.length = 16) (hs : dm.snarePattern.length = 16)
    (hh : dm.hiHatPattern.length = 16)
    (hI : isValidInstrument instrument = true)
    (hS : isValidStep step = true)
    (hv : dm.getStep instrument step = v)
    (hv0 : 0 ≤ v) :
    ((v = 0 ∨ v = 1) →
      ((dm.toggleStep instrument step).toggleStep instrument step).getStep
        instrument step = v) ∧
    (v ≠ 0 ∧ v ≠ 1 →
      (dm.toggleStep instrument step).getStep instrument step = 0 ∧
      ((dm.toggleStep instrument step).toggleStep instrument step).getStep
        instrument step = 1) := by
  obtain ⟨hk1, hs1, hh1⟩ :=
    setStep_lengths dm instrument step
      (if dm.getStep instrument step > 0 then 0 else 1) hk hs hh
  have h1 : (dm.toggleStep instrument step).getStep instrument step =
      max 0 (min 1 (if v > 0 then (0 : ℚ) else 1)) := by
    rw [toggleStep_eq dm instrument step hI hS, hv]
    rw [← hv]
    exact getStep_setStep dm instrument step _ hk hs hh hI hS
  have hlen2 : (dm.toggleStep instrument step).kickPattern.length = 16 ∧
      (dm.toggleStep instrument step).snarePattern.length = 16 ∧
      (dm.toggleStep instrument step).hiHatPattern.length = 16 := by
    rw [toggleStep_eq dm instrument step hI hS]
    exact ⟨hk1, hs1, hh1⟩
  obtain ⟨hk2, hs2, hh2⟩ := hlen2
  have h2 : ((dm.toggleStep instrument step).toggleStep instrument
        step).getStep instrument step =
      max 0 (min 1 (if (dm.toggleStep instrument step).getStep instrument
        step > 0 then (0 : ℚ) else 1)) := by
    rw [toggleStep_eq (dm.toggleStep instrument step) instrument step hI hS]
    exact getStep_setStep _ instrument step _ hk2 hs2 hh2 hI hS
  constructor
  · rintro (rfl | rfl)
    · rw [h2, h1]
      norm_num
    · rw [h2, h1]
      norm_num
  · rintro ⟨hne0, _⟩
    have hpos : v > 0 := lt_of_le_of_ne hv0 (Ne.symm hne0)
    constructor
    · rw [h1, if_pos hpos]
      norm_num
    · rw [h2, h1, if_pos hpos]
      norm_num

/-- Witness for C8: a cell holding 0 comes back to 0 after two
toggles, and a cell holding 0.5 is zeroed by the first toggle. -/
theorem toggleStep_twice_witness :
    ((dmZero.toggleStep 0 3).toggleStep 0 3).getStep 0 3 = 0 ∧
    (dmHalf.toggleStep 0 1).getStep 0 1 = 0 := by
  constructor
  · exact (toggleStep_twice dmZero 0 3 0 (by decide) (by decide) (by decide)
      (by decide) (by decide) (by decide) (by decide)).1 (Or.inl rfl)
  · exact ((toggleStep_twice dmHalf 0 1 (1/2) (by decide) (by decide)
      (by decide) (by decide) (by decide) rfl (by norm_num)).2
        (by constructor <;> norm_num)).1

theorem clampQ_mem (x lo hi : ℚ) (h : lo ≤ hi) :
    lo ≤ clampQ x lo hi ∧ clampQ x lo hi ≤ hi := by
  unfold clampQ
  split
  · exact ⟨le_refl lo, h⟩
  · split
    · exact ⟨h, le_refl hi⟩
    · constructor <;> linarith [not_lt.mp (by assumption : ¬ x < lo),
        not_lt.mp (by assumption : ¬ hi < x)]

theorem renderInterleaved_getD (frames : List FrameSources) (mv : ℚ) :
    ∀ i, i < frames.length →
      (renderInterleaved frames mv).getD (2 * i) 0 =
        (mixFrame (frames.getD i zeroFrame) mv).1 ∧
      (renderInterleaved frames mv).getD (2 * i + 1) 0 =
        (mixFrame (frames.getD i zeroFrame) mv).2 := by
  induction frames with
  | nil => intro i h; simp at h
  | cons f fs ih =>
    intro i h
    cases i with
    | zero => simp [renderInterleaved]
    | succ j =>
      have hj : j < fs.length := by simpa using h
      have h2 : 2 * (j + 1) = (2 * j + 1) + 1 := by ring
      have h3 : 2 * (j + 1) + 1 = ((2 * j + 1) + 1) + 1 := by ring
      have := ih j hj
      simp only [renderInterleaved, List.flatMap_cons, List.cons_append,
        List.nil_append, h2, h3, List.getD_cons_succ, List.getD_cons_zero]
      simpa [renderInterleaved] using this

/-- C1: each frame the callback renders writes
`clamp((synthL + loopL)·0.09 + drumSample·1.08 + metroSample·metroVol,
−1, 1)` to `output[2i]` (same with the R sources at `output[2i+1]`),
and consequently every sample of the interleaved buffer lies in
[−1, 1]. -/
theorem onAudioReady_mix_clip (frames : List FrameSources) (mv : ℚ)
    (i : Nat) (h : i < frames.length) :
    (renderInterleaved frames mv).getD (2 * i) 0 =
      clampQ (((frames.getD i zeroFrame).synthL +
          (frames.getD i zeroFrame).loopL) * (9/100) +
        (frames.getD i zeroFrame).drumSample * (108/100) +
        (frames.getD i zeroFrame).metronomeSample * mv) (-1) 1 ∧
    (renderInterleaved frames mv).getD (2 * i + 1) 0 =
      clampQ (((frames.getD i zeroFrame).synthR +
          (frames.getD i zeroFrame).loopR) * (9/100) +
        (frames.getD i zeroFrame).drumSample * (108/100) +
        (frames.getD i zeroFrame).metronomeSample * mv) (-1) 1 ∧
    (∀ y ∈ renderInterleaved frames mv, -1 ≤ y ∧ y ≤ 1) := by
  obtain ⟨hL, hR⟩ := renderInterleaved_getD frames mv i h
  refine ⟨?_, ?_, ?_⟩
  · rw [hL]; rfl
  · rw [hR]; rfl
  · intro y hy
    obtain ⟨f, _, hyf⟩ := List.mem_flatMap.mp hy
    have hone : (-1 : ℚ) ≤ 1 := by norm_num
    simp only [List.mem_cons, List.mem_singleton, List.not_mem_nil,
      or_false] at hyf
    rcases hyf with h1 | h1 <;>
      exact h1 ▸ clampQ_mem _ (-1) 1 hone

/-- Witness for C1 on a one-frame buffer with unit sources. -/
theorem onAudioReady_mix_clip_witness :
    (renderInterleaved [⟨1, 1, 1, 1, 1, 1⟩] 2).getD 0 0 =
      clampQ ((1 + 1) * (9/100) + 1 * (108/100) + 1 * 2) (-1) 1 ∧
    (∀ y ∈ renderInterleaved [⟨1, 1, 1, 1, 1, 1⟩] 2, -1 ≤ y ∧ y ≤ 1) := by
  have h := onAudioReady_mix_clip [⟨1, 1, 1, 1, 1, 1⟩] 2 0 (by decide)
  exact ⟨h.1, h.2.2⟩

/-- The scan of `stealOldestVoice`: starting from the sentinel, the
fold returns the index of the first minimum of `g` on `[0, n)` whenever
every age beats the sentinel. -/
theorem foldl_argmin (g : Nat → Nat) (sentinel n : Nat)
    (hs : ∀ i, i < n → g i < sentinel) (hn : 0 < n) :
    0 ≤ ((List.range n).foldl
        (fun acc i => if g i < acc.1 then (g i, (i : Int)) else acc)
        (sentinel, 0)).2 ∧
    ((List.range n).foldl
        (fun acc i => if g i < acc.1 then (g i, (i : Int)) else acc)
        (sentinel, 0)).2 < n ∧
    ((List.range n).foldl
        (fun acc i => if g i < acc.1 then (g i, (i : Int)) else acc)
        (sentinel, 0)).1 =
      g ((List.range n).foldl
        (fun acc i => if g i < acc.1 then (g i, (i : Int)) else acc)
        (sentinel, 0)).2.toNat ∧
    ∀ i, i < n →
      g ((List.range n).foldl
        (fun acc i => if g i < acc.1 then (g i, (i : Int)) else acc)
        (sentinel, 0)).2.toNat ≤ g i := by
  induction n with
  | zero => omega
  | succ m ih =>
    rw [List.range_succ, List.foldl_append, List.foldl_cons, List.foldl_nil]
    cases Nat.eq_zero_or_pos m with
    | inl hm =>
      subst hm
      simp only [List.range_zero, List.foldl_nil]
      have := hs 0 (by omega)
      rw [if_pos this]
      refine ⟨by omega, by omega, rfl, ?_⟩
      intro i hi
      interval_cases i
      simp
    | inr hm =>
      obtain ⟨ih0, ih1, ih2, ih3⟩ :=
        ih (fun i hi => hs i (by omega)) hm
      set r := (List.range m).foldl
        (fun acc i => if g i < acc.1 then (g i, (i : Int)) else acc)
        (sentinel, 0) with hr
      by_cases hnew : g m < r.1
      · rw [if_pos hnew]
        refine ⟨by omega, by push_cast; omega, by simp, ?_⟩
        intro i hi
        simp only [Int.toNat_natCast]
        rcases Nat.lt_succ_iff_lt_or_eq.mp hi with hi' | hi'
        · have h1 := ih3 i hi'
          have h2 : g m < g r.2.toNat := ih2 ▸ hnew
          omega
        · subst hi'
          exact le_refl _
      · rw [if_neg hnew]
        refine ⟨ih0, by push_cast; omega, ih2, ?_⟩
        intro i hi
        rcases Nat.lt_succ_iff_lt_or_eq.mp hi with hi' | hi'
        · exact ih3 i hi'
        · subst hi'
          have h2 : r.1 ≤ g i := not_lt.mp hnew
          exact le_trans (le_of_eq ih2.symm) h2

namespace PolyphonyManager

/-- C2: with unison off, when no non-idle voice is bound to the
incoming MIDI note and all 12 voices are non-idle, `noteOn` reallocates
exactly the voice whose age counter is smallest; that voice ends bound
to the new note and ACTIVE, every other voice is untouched, and if
distinct non-idle voices held distinct notes before the call they still
do after it. -/
theorem noteOn_steals_oldest (pm : PolyphonyManager) (midiNote : Int)
    (freq : ℚ)
    (hlen : pm.voices.length = 12) (halen : pm.voiceAge.length = 12)
    (huni : pm.unisonEnabled = false)
    (hbusy : ∀ i, i < 12 → (pm.voice i).isActive = true)
    (hnew : ∀ i, i < 12 → (pm.voice i).midiNote ≠ midiNote)
    (hage : ∀ i, i < 12 → pm.age i < 2 ^ 64 - 1) :
    (0 ≤ pm.stealOldestVoice ∧ pm.stealOldestVoice < 12) ∧
    (∀ i, i < 12 →
      pm.age pm.stealOldestVoice.toNat ≤ pm.age i) ∧
    ((pm.noteOn midiNote freq).voice pm.stealOldestVoice.toNat).midiNote =
      midiNote ∧
    ((pm.noteOn midiNote freq).voice pm.stealOldestVoice.toNat).vstate =
      .ACTIVE ∧
    (∀ i, i < 12 → i ≠ pm.stealOldestVoice.toNat →
      (pm.noteOn midiNote freq).voice i = pm.voice i) ∧
    ((∀ i j, i < 12 → j < 12 → i ≠ j →
        (pm.voice i).isActive = true → (pm.voice j).isActive = true →
        (pm.voice i).midiNote ≠ (pm.voice j).midiNote) →
      ∀ i j, i < 12 → j < 12 → i ≠ j →
        ((pm.noteOn midiNote freq).voice i).isActive = true →
        ((pm.noteOn midiNote freq).voice j).isActive = true →
        ((pm.noteOn midiNote freq).voice i).midiNote ≠
          ((pm.noteOn midiNote freq).voice j).midiNote) := by
  obtain ⟨hj0, hj1, _, hjmin⟩ :=
    foldl_argmin pm.age (2 ^ 64 - 1) 12 hage (by omega)
  have hsteal0 : 0 ≤ pm.stealOldestVoice := hj0
  have hsteal1 : pm.stealOldestVoice < 12 := by
    simpa [stealOldestVoice, MAX_POLYPHONY] using hj1
  have hstealmin : ∀ i, i < 12 →
      pm.age pm.stealOldestVoice.toNat ≤ pm.age i := by
    simpa [stealOldestVoice, MAX_POLYPHONY] using hjmin
  -- the allocator takes the steal branch
  have hfindnote : pm.findVoiceWithNote midiNote = -1 := by
    unfold findVoiceWithNote
    rw [List.find?_eq_none.mpr]
    intro i hi
    have hi12 : i < 12 := by
      simpa [MAX_POLYPHONY] using List.mem_range.mp hi
    simp [hnew i hi12]
  have hfindfree : pm.findFreeVoice = -1 := by
    unfold findFreeVoice
    rw [List.find?_eq_none.mpr]
    intro i hi
    have hi12 : i < 12 := by
      simpa [MAX_POLYPHONY] using List.mem_range.mp hi
    simp [hbusy i hi12]
  have hrun : pm.noteOn midiNote freq =
      pm.assign pm.stealOldestVoice.toNat
        (((pm.voice pm.stealOldestVoice.toNat).setDetune 0).noteOn
          midiNote freq) := by
    unfold noteOn
    rw [huni, hfindnote, hfindfree]
    simp
  have hjlt : pm.stealOldestVoice.toNat < pm.voices.length := by
    rw [hlen]; omega
  have hself : (pm.noteOn midiNote freq).voice pm.stealOldestVoice.toNat =
      ((pm.voice pm.stealOldestVoice.toNat).setDetune 0).noteOn
        midiNote freq := by
    rw [hrun]
    simp only [assign, voice]
    exact list_getD_set_self _ _ _ _ hjlt
  have hother : ∀ i, i < 12 → i ≠ pm.stealOldestVoice.toNat →
      (pm.noteOn midiNote freq).voice i = pm.voice i := by
    intro i hi hne
    rw [hrun]
    simp only [assign, voice]
    exact list_getD_set_ne _ _ _ _ _ (Ne.symm hne)
  clear hrun hjlt hfindnote hfindfree
  set J := pm.stealOldestVoice.toNat with hJ
  clear_value J
  refine ⟨⟨hsteal0, hsteal1⟩, hstealmin, ?_, ?_, hother, ?_⟩
  · rw [hself]
    simp [Voice.noteOn, Voice.setDetune]
  · rw [hself]
    simp [Voice.noteOn, Voice.setDetune]
  · intro hdist i j hi hj hij _ _
    by_cases hi' : i = J
    · subst hi'
      rw [hself, hother j hj (by omega)]
      intro hc
      simp [Voice.noteOn, Voice.setDetune] at hc
      exact hnew j hj hc.symm
    · by_cases hj' : j = J
      · subst hj'
        rw [hself, hother i hi hi']
        intro hc
        simp [Voice.noteOn, Voice.setDetune] at hc
        exact hnew i hi hc
      · rw [hother i hi hi', hother j hj hj']
        exact hdist i j hi hj hij (hbusy i hi) (hbusy j hj)

/-- Witness for C2: a 13th distinct note (MIDI 72) steals voice 0, the
voice with the smallest age, and binds it to the new note. -/
theorem noteOn_steals_oldest_witness :
    (0 ≤ pmScenario.stealOldestVoice ∧ pmScenario.stealOldestVoice < 12) ∧
    (∀ i, i < 12 →
      pmScenario.age pmScenario.stealOldestVoice.toNat ≤ pmScenario.age i) ∧
    ((pmScenario.noteOn 72 440).voice
      pmScenario.stealOldestVoice.toNat).midiNote = 72 := by
  have h := noteOn_steals_oldest pmScenario 72 440 (by decide) (by decide)
    (by decide) (by decide) (by decide) (by decide)
  exact ⟨h.1, h.2.1, h.2.2.1⟩

end PolyphonyManager

namespace Looper

/-- C7: `startRecordingTrack` with an out-of-range index, on a track
that already has content, or while the looper is RECORDING or in
PRE_COUNT, returns before mutating anything: the entire looper state is
unchanged. -/
theorem startRecordingTrack_ignored (s : Looper) (idx : Int)
    (h : isValidTrackIndex idx = false ∨
         (s.track idx.toNat).hasContent = true ∨
         s.state = .RECORDING ∨ s.state = .PRE_COUNT) :
    s.startRecordingTrack idx = s := by
  unfold startRecordingTrack
  rcases h with h | h | h | h
  · simp [h]
  · by_cases h1 : isValidTrackIndex idx <;> simp [h1, h]
  · by_cases h1 : isValidTrackIndex idx <;>
      by_cases h2 : (s.track idx.toNat).hasContent <;>
      simp [h1, h2, h]
  · by_cases h1 : isValidTrackIndex idx <;>
      by_cases h2 : (s.track idx.toNat).hasContent <;>
      simp [h1, h2, h]

/-- Witness for C7: recording onto the content-bearing track 0 of
`sWitness`, and onto the out-of-range index 7, are both no-ops. -/
theorem startRecordingTrack_ignored_witness :
    sWitness.startRecordingTrack 0 = sWitness ∧
    sWitness.startRecordingTrack 7 = sWitness :=
  ⟨startRecordingTrack_ignored sWitness 0 (Or.inr (Or.inl (by decide))),
   startRecordingTrack_ignored sWitness 7 (Or.inl (by decide))⟩

theorem updateBeatBar_fields (s : Looper) :
    (s.updateBeatBar).state = s.state ∧
    (s.updateBeatBar).playbackPosition = s.playbackPosition ∧
    (s.updateBeatBar).recordPosition = s.recordPosition ∧
    (s.updateBeatBar).loopLengthSamples = s.loopLengthSamples ∧
    (s.updateBeatBar).tracks = s.tracks ∧
    (s.updateBeatBar).loopLengthLocked = s.loopLengthLocked ∧
    (s.updateBeatBar).activeRecordingTrack = s.activeRecordingTrack ∧
    (s.updateBeatBar).samplesPerBeat = s.samplesPerBeat := by
  unfold updateBeatBar
  split <;> split <;> simp

/-- In the PLAYING state one `process` call leaves everything but the
position and the beat/bar counters alone, and advances the position by
one with a wrap at `loopLengthSamples`. -/
theorem process_playing_step (s : Looper) (x y : ℚ)
    (h : s.state = .PLAYING) :
    (s.process x y).1.state = .PLAYING ∧
    (s.process x y).1.loopLengthSamples = s.loopLengthSamples ∧
    (s.process x y).1.tracks = s.tracks ∧
    (s.process x y).1.loopLengthLocked = s.loopLengthLocked ∧
    (s.process x y).1.activeRecordingTrack = s.activeRecordingTrack ∧
    (s.process x y).1.samplesPerBeat = s.samplesPerBeat ∧
    (s.process x y).1.playbackPosition =
      (if s.playbackPosition + 1 ≥ s.loopLengthSamples then 0
       else s.playbackPosition + 1) := by
  have hred : s.process x y = s.processPlaying := by
    unfold process
    rw [h]
  rw [hred]
  unfold processPlaying
  obtain ⟨h1, h2, h3, h4, h5, h6, h7, h8⟩ :=
    updateBeatBar_fields { s with playbackPosition := s.playbackPosition + 1 }
  simp only [h1, h2, h3, h4, h5, h6, h7, h8]
  split <;> simp_all

/-- C4: in the PLAYING and PRE_COUNT states `process` keeps the
playback position inside `[0, loopLengthSamples)`; a PLAYING step
advances it by one and resets it to 0 when it reaches the loop length;
and from position 0 the position after k PLAYING frames is
`k mod loopLengthSamples`, so it returns to 0 exactly every
`loopLengthSamples` frames. -/
theorem playback_position_invariant (s : Looper) (x y : ℚ)
    (hL : 0 < s.loopLengthSamples)
    (h0 : 0 ≤ s.playbackPosition)
    (h1 : s.playbackPosition < s.loopLengthSamples) :
    ((s.state = .PLAYING ∨ s.state = .PRE_COUNT) →
      0 ≤ (s.process x y).1.playbackPosition ∧
      (s.process x y).1.playbackPosition < s.loopLengthSamples) ∧
    (s.state = .PLAYING →
      (s.process x y).1.playbackPosition =
        (s.playbackPosition + 1) % s.loopLengthSamples) ∧
    (s.state = .PLAYING → s.playbackPosition = 0 →
      ∀ k : Nat, (processIter k s).playbackPosition =
        (k : Int) % s.loopLengthSamples) := by
  have hmod : ∀ p : Int, 0 ≤ p → p < s.loopLengthSamples →
      (if p + 1 ≥ s.loopLengthSamples then (0 : Int) else p + 1) =
        (p + 1) % s.loopLengthSamples := by
    intro p hp0 hp1
    by_cases hc : p + 1 ≥ s.loopLengthSamples
    · have : p + 1 = s.loopLengthSamples := by omega
      rw [if_pos hc, this, Int.emod_self]
    · rw [if_neg hc, Int.emod_eq_of_lt (by omega) (by omega)]
  refine ⟨?_, ?_, ?_⟩
  · rintro (h | h)
    · obtain ⟨_, _, _, _, _, _, hpos⟩ := process_playing_step s x y h
      rw [hpos]
      split <;> omega
    · have hred : s.process x y = s.processPreCount := by
        unfold process
        rw [h]
      rw [hred]
      simp only [processPreCount]
      split_ifs <;> simp_all <;> omega
  · intro h
    obtain ⟨_, _, _, _, _, _, hpos⟩ := process_playing_step s x y h
    rw [hpos]
    exact hmod s.playbackPosition h0 h1
  · intro h hz k
    have hclosed : ∀ m : Nat, (processIter m s).state = .PLAYING ∧
        (processIter m s).loopLengthSamples = s.loopLengthSamples := by
      intro m
      induction m with
      | zero => exact ⟨h, rfl⟩
      | succ n ihn =>
        obtain ⟨hst, hlen⟩ := ihn
        obtain ⟨hst', hlen', _⟩ :=
          process_playing_step (processIter n s) 0 0 hst
        refine ⟨hst', ?_⟩
        show ((processIter n s).process 0 0).1.loopLengthSamples = _
        rw [hlen', hlen]
    induction k with
    | zero => simp [processIter, hz]
    | succ m ihm =>
      obtain ⟨hst, hlen⟩ := hclosed m
      obtain ⟨_, _, _, _, _, _, hpos⟩ :=
        process_playing_step (processIter m s) 0 0 hst
      have hm0 : 0 ≤ (processIter m s).playbackPosition := by
        rw [ihm]
        exact Int.emod_nonneg _ (by omega)
      have hm1 : (processIter m s).playbackPosition < s.loopLengthSamples := by
        rw [ihm]
        exact Int.emod_lt_of_pos _ hL
      show ((processIter m s).process 0 0).1.playbackPosition = _
      rw [hpos, hlen, hmod _ hm0 hm1, ihm]
      have hdecomp : ((m : Int) + 1) =
          ((m : Int) % s.loopLengthSamples + 1) +
            s.loopLengthSamples * ((m : Int) / s.loopLengthSamples) := by
        have hde := Int.ediv_add_emod (m : Int) s.loopLengthSamples
        linarith
      push_cast
      rw [hdecomp, Int.add_mul_emod_self_left]

/-- Witness for C4: on a playing looper with loop length 4 the position
stays in range after one frame, and after 5 frames from position 0 it
sits at 5 mod 4 = 1. -/
theorem playback_position_invariant_witness :
    (0 ≤ (sPlaying.process 0 0).1.playbackPosition ∧
      (sPlaying.process 0 0).1.playbackPosition <
        sPlaying.loopLengthSamples) ∧
    (processIter 5 sPlaying).playbackPosition =
      (5 : Int) % sPlaying.loopLengthSamples := by
  have hp := playback_position_invariant sPlaying 0 0 (by decide) (by decide)
    (by decide)
  exact ⟨hp.1 (Or.inl rfl), hp.2.2 rfl rfl 5⟩

theorem setTrack_track_self (s : Looper) (i : Nat) (t : LoopTrack)
    (h : i < s.tracks.length) : (s.setTrack i t).track i = t := by
  simp only [setTrack, track]
  exact list_getD_set_self _ _ _ _ h

theorem setTrack_track_ne (s : Looper) (i j : Nat) (t : LoopTrack)
    (h : i ≠ j) : (s.setTrack i t).track j = s.track j := by
  simp only [setTrack, track]
  exact list_getD_set_ne _ _ _ _ _ h

theorem setTrack_length (s : Looper) (i : Nat) (t : LoopTrack) :
    (s.setTrack i t).tracks.length = s.tracks.length := by
  simp [setTrack]

theorem recordWrite_fields (s : Looper) (x y : ℚ) :
    (s.recordWrite x y).state = s.state ∧
    (s.recordWrite x y).recordPosition = s.recordPosition ∧
    (s.recordWrite x y).loopLengthSamples = s.loopLengthSamples ∧
    (s.recordWrite x y).loopLengthLocked = s.loopLengthLocked ∧
    (s.recordWrite x y).activeRecordingTrack = s.activeRecordingTrack ∧
    (s.recordWrite x y).samplesPerBeat = s.samplesPerBeat ∧
    (s.recordWrite x y).tracks.length = s.tracks.length ∧
    (∀ j, ((s.recordWrite x y).track j).hasContent =
      (s.track j).hasContent) := by
  unfold recordWrite
  split
  · refine ⟨by simp [setTrack], by simp [setTrack], by simp [setTrack],
      by simp [setTrack], by simp [setTrack], by simp [setTrack],
      setTrack_length s _ _, ?_⟩
    intro j
    by_cases hij : s.activeRecordingTrack.toNat = j
    · subst hij
      by_cases hlt : s.activeRecordingTrack.toNat < s.tracks.length
      · rw [setTrack_track_self _ _ _ hlt]
      · have hge : s.tracks.length ≤ s.activeRecordingTrack.toNat := by
          omega
        simp [setTrack, track, List.set_eq_of_length_le hge]
    · rw [setTrack_track_ne _ _ _ _ hij]
  · exact ⟨rfl, rfl, rfl, rfl, rfl, rfl, rfl, fun j => rfl⟩

/-- The recorded sample lands in the active track's buffers. -/
theorem recordWrite_track_active (s : Looper) (x y : ℚ)
    (hvalid : isValidTrackIndex s.activeRecordingTrack = true)
    (hpos : s.recordPosition < s.loopLengthSamples)
    (hlen : s.activeRecordingTrack.toNat < s.tracks.length) :
    (s.recordWrite x y).track s.activeRecordingTrack.toNat =
      { s.track s.activeRecordingTrack.toNat with
          bufferL := (s.track s.activeRecordingTrack.toNat).bufferL.set
            s.recordPosition.toNat x,
          bufferR := (s.track s.activeRecordingTrack.toNat).bufferR.set
            s.recordPosition.toNat y } := by
  unfold recordWrite
  rw [if_pos ⟨hvalid, hpos⟩]
  exact setTrack_track_self _ _ _ hlen

theorem recordFinish_fields (s : Looper) :
    (s.recordFinish).state = .STOPPED ∧
    (s.recordFinish).loopLengthLocked = true ∧
    (s.recordFinish).loopLengthSamples = s.loopLengthSamples ∧
    (s.recordFinish).activeRecordingTrack = -1 ∧
    (s.recordFinish).playbackPosition = 0 ∧
    (s.recordFinish).tracks.length = s.tracks.length := by
  unfold recordFinish
  exact ⟨rfl, rfl, by simp [setTrack], rfl, rfl, by simp [setTrack]⟩

theorem recordFinish_track_active (s : Looper)
    (hlen : s.activeRecordingTrack.toNat < s.tracks.length) :
    (s.recordFinish).track s.activeRecordingTrack.toNat =
      { s.track s.activeRecordingTrack.toNat with hasContent := true } := by
  unfold recordFinish
  have h : ({ s.setTrack s.activeRecordingTrack.toNat
      { s.track s.activeRecordingTrack.toNat with hasContent := true } with
        loopLengthLocked := true, state := LooperState.STOPPED,
        activeRecordingTrack := -1, playbackPosition := 0,
        currentBeat := 0, currentBar := 0 }).tracks =
      (s.setTrack s.activeRecordingTrack.toNat
        { s.track s.activeRecordingTrack.toNat with
          hasContent := true }).tracks := rfl
  show Looper.track _ _ = _
  rw [track, h, ← track, setTrack_track_self _ _ _ hlen]

/-- Fields of the looper that `startRecordingTrack` leaves alone on its
effective path when the loop length is already locked, and the buffers
it allocates. -/
theorem startRecordingTrack_locked (s : Looper) (j : Int)
    (hvalid : isValidTrackIndex j = true)
    (hcontent : (s.track j.toNat).hasContent = false)
    (hstate1 : s.state ≠ .RECORDING) (hstate2 : s.state ≠ .PRE_COUNT)
    (hlocked : s.loopLengthLocked = true)
    (hjlen : j.toNat < s.tracks.length) :
    ((s.startRecordingTrack j).track j.toNat).bufferL.length =
      s.loopLengthSamples.toNat ∧
    ((s.startRecordingTrack j).track j.toNat).bufferR.length =
      s.loopLengthSamples.toNat := by
  unfold startRecordingTrack
  rw [hvalid]
  simp only [Bool.not_true, Bool.false_eq_true, if_false]
  rw [hcontent]
  simp only [Bool.false_eq_true, if_false]
  rw [if_neg (by simp [hstate1, hstate2])]
  rw [hlocked]
  simp only [Bool.not_true, Bool.false_eq_true, if_false]
  have h : ∀ t : Looper,
      ({ t with activeRecordingTrack := j,
                state := LooperState.PRE_COUNT,
                preCountPosition := 0, recordPosition := 0,
                currentBeat := 0, currentBar := 0 }).track j.toNat =
        t.track j.toNat := fun t => rfl
  rw [h, setTrack_track_self _ _ _ hjlen]
  simp

/-- C3: when, during RECORDING with the loop length
`L = barsPerLoop·4·samplesPerBeat`, the record position reaches `L`
(the completing frame), the looper marks the recorded track
`hasContent`, locks the loop length, and moves to STOPPED; the track's
two buffers have length exactly `L`, and any subsequent
`startRecordingTrack` on the resulting looper allocates buffers of
length exactly `L` again. -/
theorem recording_completion (s : Looper) (x y : ℚ)
    (htracks : s.tracks.length = 4)
    (hstate : s.state = .RECORDING)
    (hvalid : isValidTrackIndex s.activeRecordingTrack = true)
    (hL : s.loopLengthSamples = s.barsToRecord * 4 * s.samplesPerBeat)
    (hLpos : 0 < s.loopLengthSamples)
    (hrec : s.recordPosition = s.loopLengthSamples - 1)
    (hbufL : (s.track s.activeRecordingTrack.toNat).bufferL.length =
      s.loopLengthSamples.toNat)
    (hbufR : (s.track s.activeRecordingTrack.toNat).bufferR.length =
      s.loopLengthSamples.toNat) :
    (s.process x y).1.state = .STOPPED ∧
    (s.process x y).1.loopLengthLocked = true ∧
    ((s.process x y).1.track s.activeRecordingTrack.toNat).hasContent =
      true ∧
    ((s.process x y).1.track s.activeRecordingTrack.toNat).bufferL.length =
      s.loopLengthSamples.toNat ∧
    ((s.process x y).1.track s.activeRecordingTrack.toNat).bufferR.length =
      s.loopLengthSamples.toNat ∧
    (s.process x y).1.loopLengthSamples = s.loopLengthSamples ∧
    (∀ j : Int, isValidTrackIndex j = true →
      (((s.process x y).1).track j.toNat).hasContent = false →
      (((s.process x y).1.startRecordingTrack j).track j.toNat).bufferL.length
          = s.loopLengthSamples.toNat ∧
      (((s.process x y).1.startRecordingTrack j).track j.toNat).bufferR.length
          = s.loopLengthSamples.toNat) := by
  have hvalid' : s.activeRecordingTrack.toNat < s.tracks.length := by
    simp [isValidTrackIndex, MAX_TRACKS] at hvalid
    omega
  obtain ⟨w1, w2, w3, w4, w5, w6, w7, w8⟩ := recordWrite_fields s x y
  have hwactive := recordWrite_track_active s x y hvalid (by omega)
    hvalid'
  -- the record step result and its increment
  set sr := s.recordWrite x y with hsr
  set s2 : Looper := { sr with recordPosition := sr.recordPosition + 1 }
    with hs2
  obtain ⟨u1, u2, u3, u4, u5, u6, u7, u8⟩ := updateBeatBar_fields s2
  have hs2rec : s2.recordPosition = s.recordPosition + 1 := by
    rw [hs2]
    show sr.recordPosition + 1 = _
    rw [w2]
  have hs2len : s2.loopLengthSamples = s.loopLengthSamples := w3
  have hs2active : s2.activeRecordingTrack = s.activeRecordingTrack := w5
  have hs2tracks : s2.tracks = sr.tracks := rfl
  clear_value s2
  clear_value sr
  have hcond2 : s2.updateBeatBar.recordPosition ≥
      s2.updateBeatBar.loopLengthSamples := by
    rw [u3, u4, hs2rec, hs2len]
    omega
  have hred : (s.process x y).1 = s2.updateBeatBar.recordFinish := by
    unfold process
    rw [hstate]
    show (s.processRecording x y).1 = _
    simp only [processRecording]
    rw [← hsr, ← hs2]
    simp only [if_pos hcond2]
  -- facts about the third intermediate state
  have h3active : s2.updateBeatBar.activeRecordingTrack.toNat =
      s.activeRecordingTrack.toNat := by
    rw [u7, hs2active]
  have h3tracklen : s2.updateBeatBar.tracks.length = s.tracks.length := by
    rw [u5, hs2tracks, w7]
  have h3track : ∀ j, s2.updateBeatBar.track j = sr.track j := by
    intro j
    rw [track, u5, hs2tracks, ← track]
  have h3len : s2.updateBeatBar.loopLengthSamples = s.loopLengthSamples := by
    rw [u4, hs2len]
  obtain ⟨f1, f2, f3, f4, f5, f6⟩ := recordFinish_fields s2.updateBeatBar
  have hftrack : (s.process x y).1.track s.activeRecordingTrack.toNat =
      { sr.track s.activeRecordingTrack.toNat with hasContent := true } := by
    rw [hred, ← h3active,
      recordFinish_track_active s2.updateBeatBar
        (by rw [h3active, h3tracklen]; exact hvalid'),
      h3active, h3track]
  have hflen : (s.process x y).1.loopLengthSamples = s.loopLengthSamples := by
    rw [hred, f3, h3len]
  have hfstate : (s.process x y).1.state = .STOPPED := by rw [hred, f1]
  have hflocked : (s.process x y).1.loopLengthLocked = true := by
    rw [hred, f2]
  have hftracks : (s.process x y).1.tracks.length = 4 := by
    rw [hred, f6, h3tracklen, htracks]
  refine ⟨hfstate, hflocked, ?_, ?_, ?_, hflen, ?_⟩
  · rw [hftrack]
  · rw [hftrack]
    show ((sr.track s.activeRecordingTrack.toNat).bufferL).length = _
    rw [hwactive]
    simpa using hbufL
  · rw [hftrack]
    show ((sr.track s.activeRecordingTrack.toNat).bufferR).length = _
    rw [hwactive]
    simpa using hbufR
  · intro j hjv hjc
    have hjlen : j.toNat < (s.process x y).1.tracks.length := by
      rw [hftracks]
      simp [isValidTrackIndex, MAX_TRACKS] at hjv
      omega
    have h := startRecordingTrack_locked (s.process x y).1 j hjv hjc
      (by rw [hfstate]; intro hc; cases hc)
      (by rw [hfstate]; intro hc; cases hc)
      hflocked hjlen
    rw [hflen] at h
    exact h

/-- Witness for C3 on `sRecording`: the completing frame stops the
looper, locks the length, marks content, and the buffers hold exactly
4 samples. -/
theorem recording_completion_witness :
    (sRecording.process 0 0).1.state = .STOPPED ∧
    (sRecording.process 0 0).1.loopLengthLocked = true ∧
    ((sRecording.process 0 0).1.track 0).hasContent = true ∧
    ((sRecording.process 0 0).1.track 0).bufferL.length =
      (4 : Int).toNat := by
  have h := recording_completion sRecording 0 0 (by decide) rfl (by decide)
    (by decide) (by decide) (by decide) (by decide) (by decide)
  exact ⟨h.1, h.2.1, h.2.2.1, h.2.2.2.1⟩

end Looper

theorem list_any_set_congr {α : Type} (l : List α) (i : Nat) (a : α)
    (p : α → Bool) (d : α) (h : p a = p (l.getD i d)) :
    (l.set i a).any p = l.any p := by
  induction l generalizing i with
  | nil => rfl
  | cons b l ih =>
    cases i with
    | zero =>
      simp only [List.getD_cons_zero] at h
      simp [h]
    | succ j =>
      simp only [List.getD_cons_succ] at h
      simp [List.set, ih j h]

theorem list_any_set_true {α : Type} (l : List α) (i : Nat) (a : α)
    (p : α → Bool) (hi : i < l.length) (hp : p a = true) :
    (l.set i a).any p = true := by
  induction l generalizing i with
  | nil => simp at hi
  | cons b l ih =>
    cases i with
    | zero => simp [hp]
    | succ j =>
      have hj : j < l.length := by simpa using hi
      simp [List.set, ih j hj]

theorem list_any_false_of_pointwise {α : Type} (l : List α) (p : α → Bool)
    (d : α) (h : ∀ j, j < l.length → p (l.getD j d) = false) :
    l.any p = false := by
  induction l with
  | nil => rfl
  | cons b l ih =>
    have h0 := h 0 (by simp)
    simp only [List.getD_cons_zero] at h0
    have ht : ∀ j, j < l.length → p (l.getD j d) = false := by
      intro j hj
      have := h (j + 1) (by simpa using hj)
      simpa using this
    simp [h0, ih ht]

namespace Looper

theorem hasAnyLoop_setTrack (s : Looper) (i : Nat) (t : LoopTrack)
    (h : t.hasContent = (s.track i).hasContent) :
    (s.setTrack i t).hasAnyLoop = s.hasAnyLoop := by
  unfold hasAnyLoop setTrack
  exact list_any_set_congr s.tracks i t _ defaultLoopTrack h

theorem hasAnyLoop_setTrack_true (s : Looper) (i : Nat) (t : LoopTrack)
    (hi : i < s.tracks.length) (h : t.hasContent = true) :
    (s.setTrack i t).hasAnyLoop = true := by
  unfold hasAnyLoop setTrack
  exact list_any_set_true s.tracks i t _ hi h

theorem setTrack_hasContent_pointwise (s : Looper) (i : Nat) (t : LoopTrack)
    (h : t.hasContent = (s.track i).hasContent) :
    ∀ j, ((s.setTrack i t).track j).hasContent = (s.track j).hasContent := by
  intro j
  by_cases hij : i = j
  · subst hij
    by_cases hlt : i < s.tracks.length
    · rw [setTrack_track_self _ _ _ hlt, h]
    · have hge : s.tracks.length ≤ i := by omega
      simp [setTrack, track, List.set_eq_of_length_le hge]
  · rw [setTrack_track_ne _ _ _ _ hij]

/-- Any state change that keeps the tracks, lock flag, state and active
index keeps the invariant. -/
theorem looperInv_congr (s s2 : Looper)
    (htr : s2.tracks = s.tracks) (hlk : s2.loopLengthLocked = s.loopLengthLocked)
    (hst : s2.state = s.state)
    (hac : s2.activeRecordingTrack = s.activeRecordingTrack)
    (hinv : looperInv s) : looperInv s2 := by
  obtain ⟨i1, i2, i3⟩ := hinv
  refine ⟨by rw [htr, i1], ?_, ?_⟩
  · intro hl
    have : s.hasAnyLoop = true := i2 (by rw [← hlk, hl])
    unfold hasAnyLoop at *
    rw [htr]
    exact this
  · intro hs
    rw [hst] at hs
    obtain ⟨j1, j2⟩ := i3 hs
    refine ⟨by rw [hac]; exact j1, ?_⟩
    unfold track at *
    rw [htr, hac]
    exact j2

theorem updateTiming_fields (s : Looper) :
    (s.updateTiming).tracks = s.tracks ∧
    (s.updateTiming).loopLengthLocked = s.loopLengthLocked ∧
    (s.updateTiming).state = s.state ∧
    (s.updateTiming).activeRecordingTrack = s.activeRecordingTrack := by
  simp only [updateTiming]
  split <;> simp

theorem looperInv_updateTiming (s : Looper) (h : looperInv s) :
    looperInv s.updateTiming := by
  obtain ⟨a, b, c, d⟩ := updateTiming_fields s
  exact looperInv_congr s _ a b c d h

theorem looperInv_setSampleRate (s : Looper) (q : ℚ) (h : looperInv s) :
    looperInv (s.setSampleRate q) := by
  unfold setSampleRate
  have h2 : looperInv { s with sampleRate := q } :=
    looperInv_congr s _ rfl rfl rfl rfl h
  obtain ⟨a, b, c, d⟩ := updateTiming_fields { s with sampleRate := q }
  exact looperInv_congr _ _ a b c d h2

theorem looperInv_setBPM (s : Looper) (q : ℚ) (h : looperInv s) :
    looperInv (s.setBPM q) := by
  unfold setBPM
  have h2 : looperInv { s with bpm := max 30 (min 300 q) } :=
    looperInv_congr s _ rfl rfl rfl rfl h
  obtain ⟨a, b, c, d⟩ := updateTiming_fields { s with bpm := max 30 (min 300 q) }
  exact looperInv_congr _ _ a b c d h2

/-- `setTrack` with a track whose content flag matches the old one
keeps the invariant. -/
theorem looperInv_setTrack (s : Looper) (i : Nat) (t : LoopTrack)
    (ht : t.hasContent = (s.track i).hasContent) (h : looperInv s) :
    looperInv (s.setTrack i t) := by
  obtain ⟨i1, i2, i3⟩ := h
  refine ⟨by rw [setTrack_length]; exact i1, ?_, ?_⟩
  · intro hl
    rw [hasAnyLoop_setTrack s i t ht]
    exact i2 hl
  · intro hs
    obtain ⟨j1, j2⟩ := i3 hs
    exact ⟨j1, by rw [setTrack_hasContent_pointwise s i t ht]; exact j2⟩

theorem looperInv_setTrackVolume (s : Looper) (idx : Int) (q : ℚ)
    (h : looperInv s) : looperInv (s.setTrackVolume idx q) := by
  unfold setTrackVolume
  split
  · exact looperInv_setTrack s _ _ rfl h
  · exact h

theorem looperInv_setTrackMuted (s : Looper) (idx : Int) (b : Bool)
    (h : looperInv s) : looperInv (s.setTrackMuted idx b) := by
  unfold setTrackMuted
  split
  · exact looperInv_setTrack s _ _ rfl h
  · exact h

theorem looperInv_setTrackSolo (s : Looper) (idx : Int) (b : Bool)
    (h : looperInv s) : looperInv (s.setTrackSolo idx b) := by
  unfold setTrackSolo
  split
  · exact looperInv_setTrack s _ _ rfl h
  · exact h

theorem looperInv_stopPlayback (s : Looper) (h : looperInv s) :
    looperInv s.stopPlayback := by
  unfold stopPlayback
  split
  · obtain ⟨i1, i2, i3⟩ := h
    exact ⟨i1, fun hl => i2 hl, fun hs => by rcases hs with hs | hs <;> cases hs⟩
  · exact h

theorem looperInv_startPlayback (s : Looper) (h : looperInv s) :
    looperInv s.startPlayback := by
  unfold startPlayback
  split
  · obtain ⟨i1, i2, i3⟩ := h
    exact ⟨i1, fun hl => i2 hl, fun hs => by rcases hs with hs | hs <;> cases hs⟩
  · exact h

theorem looperInv_startRecordingTrack (s : Looper) (idx : Int)
    (h : looperInv s) : looperInv (s.startRecordingTrack idx) := by
  unfold startRecordingTrack
  by_cases h1 : isValidTrackIndex idx
  · by_cases h2 : (s.track idx.toNat).hasContent
    · simp only [h1, Bool.not_true, Bool.false_eq_true, if_false, h2,
        if_true]
      exact h
    · by_cases h3 : s.state = LooperState.RECORDING ∨
          s.state = LooperState.PRE_COUNT
      · simp only [h1, Bool.not_true, Bool.false_eq_true, if_false,
          h2, if_pos h3]
        exact h
      · simp only [h1, Bool.not_true, Bool.false_eq_true, if_false,
          h2, if_neg h3]
        have hsu : looperInv
            (if (!s.loopLengthLocked) = true then s.updateTiming else s) := by
          split
          · exact looperInv_updateTiming s h
          · exact h
        have hsutrk : (if (!s.loopLengthLocked) = true then s.updateTiming
            else s).track idx.toNat = s.track idx.toNat := by
          split
          · rw [track, (updateTiming_fields s).1]
            rfl
          · rfl
        set su := if (!s.loopLengthLocked) = true then s.updateTiming else s
          with hsu_def
        clear_value su
        obtain ⟨i1, i2, i3⟩ := hsu
        have hidx : idx.toNat < su.tracks.length := by
          simp [isValidTrackIndex, MAX_TRACKS] at h1
          omega
        set t : LoopTrack :=
          { su.track idx.toNat with
              bufferL := List.replicate su.loopLengthSamples.toNat 0,
              bufferR := List.replicate su.loopLengthSamples.toNat 0 }
          with ht_def
        have hthc : t.hasContent = (su.track idx.toNat).hasContent := rfl
        refine ⟨?_, ?_, ?_⟩
        · show (su.setTrack idx.toNat t).tracks.length = 4
          rw [setTrack_length]
          exact i1
        · intro hl
          show (su.setTrack idx.toNat t).hasAnyLoop = true
          rw [hasAnyLoop_setTrack su idx.toNat t hthc]
          exact i2 hl
        · intro _
          refine ⟨h1, ?_⟩
          show ((su.setTrack idx.toNat t).track idx.toNat).hasContent = false
          rw [setTrack_track_self _ _ _ hidx, hthc, hsutrk]
          simpa using h2
  · simp only [h1]
    simp only [Bool.not_eq_true] at h1
    simp [h1]
    exact h

theorem looperInv_clearTrack (s : Looper) (idx : Int) (h : looperInv s) :
    looperInv (s.clearTrack idx) := by
  unfold clearTrack
  by_cases h1 : isValidTrackIndex idx
  · by_cases h2 : s.activeRecordingTrack = idx ∧
        (s.state = LooperState.PRE_COUNT ∨ s.state = LooperState.RECORDING)
    · simp only [h1, Bool.not_true, Bool.false_eq_true, if_false,
        if_pos h2]
      exact h
    · simp only [h1, Bool.not_true, Bool.false_eq_true, if_false,
        if_neg h2]
      obtain ⟨i1, i2, i3⟩ := h
      set t : LoopTrack :=
        { bufferL := [], bufferR := [], hasContent := false,
          volume := 7/10, muted := false, solo := false } with ht_def
      have hlen1 : (s.setTrack idx.toNat t).tracks.length = 4 := by
        rw [setTrack_length]
        exact i1
      split
      · exact ⟨hlen1, (by intro hl; simp at hl), (by intro hs; simp at hs)⟩
      · rename_i hany
        simp only [Bool.not_eq_true] at hany
        refine ⟨hlen1, ?_, ?_⟩
        · intro _
          simpa using hany
        · intro hs
          obtain ⟨j1, j2⟩ := i3 hs
          have hne : s.activeRecordingTrack ≠ idx := by
            intro hc
            exact h2 ⟨hc, hs⟩
          have hne' : idx.toNat ≠ s.activeRecordingTrack.toNat := by
            simp [isValidTrackIndex, MAX_TRACKS] at h1 j1
            omega
          refine ⟨j1, ?_⟩
          show ((s.setTrack idx.toNat t).track
            s.activeRecordingTrack.toNat).hasContent = false
          rw [setTrack_track_ne _ _ _ _ hne']
          exact j2
  · simp only [h1]
    simp only [Bool.not_eq_true] at h1
    simp [h1]
    exact h

theorem looperInv_clearAllTracks (s : Looper) (h : looperInv s) :
    looperInv s.clearAllTracks := by
  refine ⟨?_, ?_, ?_⟩
  · show s.clearAllTracks.tracks.length = 4
    simp only [clearAllTracks, stopPlayback]
    split <;> rename_i hc <;> simp [hc, h.1]
  · intro hl
    simp only [clearAllTracks, stopPlayback] at hl
    simp at hl
  · intro hs
    simp only [clearAllTracks, stopPlayback] at hs
    simp at hs

theorem looperInv_cancelRecording (s : Looper) (h : looperInv s) :
    looperInv s.cancelRecording := by
  unfold cancelRecording
  by_cases h1 : s.state = LooperState.PRE_COUNT ∨
      s.state = LooperState.RECORDING
  · obtain ⟨i1, i2, i3⟩ := h
    obtain ⟨jv, jc⟩ := i3 (by tauto)
    simp only [if_pos h1, jv, if_true]
    set t : LoopTrack :=
      { s.track s.activeRecordingTrack.toNat with
          bufferL := [], bufferR := [], hasContent := false } with ht_def
    have hthc : t.hasContent = (s.track s.activeRecordingTrack.toNat).hasContent := by
      rw [jc]
    refine ⟨?_, ?_, ?_⟩
    · show (s.setTrack s.activeRecordingTrack.toNat t).tracks.length = 4
      rw [setTrack_length]
      exact i1
    · intro hl
      show (s.setTrack s.activeRecordingTrack.toNat t).hasAnyLoop = true
      rw [hasAnyLoop_setTrack _ _ _ hthc]
      exact i2 hl
    · intro hs
      rcases hs with hs | hs <;> revert hs <;> split <;> intro hs <;> cases hs
  · simp only [if_neg h1]
    exact h

theorem processPreCount_fields (s : Looper) :
    (s.processPreCount).1.tracks = s.tracks ∧
    (s.processPreCount).1.loopLengthLocked = s.loopLengthLocked ∧
    (s.processPreCount).1.activeRecordingTrack = s.activeRecordingTrack ∧
    ((s.processPreCount).1.state = s.state ∨
      (s.processPreCount).1.state = .RECORDING) := by
  simp only [processPreCount]
  split_ifs <;> simp

theorem recordWrite_hasAnyLoop (s : Looper) (x y : ℚ) :
    (s.recordWrite x y).hasAnyLoop = s.hasAnyLoop := by
  unfold recordWrite
  split
  · exact hasAnyLoop_setTrack _ _ _ rfl
  · rfl

theorem looperInv_processRecording (s : Looper) (x y : ℚ)
    (hst : s.state = .RECORDING) (h : looperInv s) :
    looperInv (s.processRecording x y).1 := by
  obtain ⟨i1, i2, i3⟩ := h
  obtain ⟨jv, jc⟩ := i3 (Or.inr hst)
  obtain ⟨w1, w2, w3, w4, w5, w6, w7, w8⟩ := recordWrite_fields s x y
  have w9 := recordWrite_hasAnyLoop s x y
  set sr := s.recordWrite x y with hsr
  set s2 : Looper := { sr with recordPosition := sr.recordPosition + 1 }
    with hs2
  have hs2tracks : s2.tracks = sr.tracks := rfl
  have hs2locked : s2.loopLengthLocked = sr.loopLengthLocked := rfl
  have hs2active : s2.activeRecordingTrack = sr.activeRecordingTrack := rfl
  have hs2state : s2.state = sr.state := rfl
  have hs2any : s2.hasAnyLoop = s.hasAnyLoop := by
    rw [hasAnyLoop, hs2tracks, ← hasAnyLoop, w9]
  clear_value s2
  clear_value sr
  obtain ⟨u1, u2, u3, u4, u5, u6, u7, u8⟩ := updateBeatBar_fields s2
  have h3tracks : s2.updateBeatBar.tracks = sr.tracks := by rw [u5, hs2tracks]
  have h3any : s2.updateBeatBar.hasAnyLoop = s.hasAnyLoop := by
    rw [hasAnyLoop, u5, ← hasAnyLoop, hs2any]
  have h3active : s2.updateBeatBar.activeRecordingTrack =
      s.activeRecordingTrack := by rw [u7, hs2active, w5]
  have h3len : s2.updateBeatBar.tracks.length = 4 := by
    rw [h3tracks, w7, i1]
  have h3track : ∀ j, s2.updateBeatBar.track j = sr.track j := by
    intro j
    rw [track, u5, hs2tracks, ← track]
  have hred : (s.processRecording x y).1 =
      if s2.updateBeatBar.recordPosition ≥
          s2.updateBeatBar.loopLengthSamples then
        s2.updateBeatBar.recordFinish
      else s2.updateBeatBar := by
    simp only [processRecording]
    rw [← hsr, ← hs2]
  rw [hred]
  split
  · -- completion: content marked, locked, STOPPED
    have hidx : s2.updateBeatBar.activeRecordingTrack.toNat <
        s2.updateBeatBar.tracks.length := by
      rw [h3active, h3len]
      simp [isValidTrackIndex, MAX_TRACKS] at jv
      omega
    obtain ⟨f1, f2, f3, f4, f5, f6⟩ := recordFinish_fields s2.updateBeatBar
    refine ⟨by rw [f6, h3len], ?_, ?_⟩
    · intro _
      show (s2.updateBeatBar.recordFinish).hasAnyLoop = true
      unfold recordFinish
      show (s2.updateBeatBar.setTrack _ _).hasAnyLoop = true
      exact hasAnyLoop_setTrack_true _ _ _ hidx rfl
    · intro hs
      rw [f1] at hs
      rcases hs with hs | hs <;> cases hs
  · refine ⟨by rw [u5, hs2tracks, w7, i1], ?_, ?_⟩
    · intro hl
      rw [h3any]
      apply i2
      rw [u6, hs2locked, w4] at hl
      exact hl
    · intro _
      refine ⟨by rw [h3active]; exact jv, ?_⟩
      rw [h3active, h3track, w8]
      exact jc

theorem looperInv_process (s : Looper) (x y : ℚ) (h : looperInv s) :
    looperInv (s.process x y).1 := by
  cases hst : s.state with
  | IDLE =>
    have hr : (s.process x y).1 = s := by unfold process; rw [hst]
    rw [hr]; exact h
  | STOPPED =>
    have hr : (s.process x y).1 = s := by unfold process; rw [hst]
    rw [hr]; exact h
  | PLAYING =>
    obtain ⟨p1, p2, p3, p4, p5, p6, p7⟩ := process_playing_step s x y hst
    exact looperInv_congr s _ p3 p4 (by rw [p1, hst]) p5 h
  | PRE_COUNT =>
    have hr : (s.process x y).1 = (s.processPreCount).1 := by
      unfold process; rw [hst]
    rw [hr]
    obtain ⟨q1, q2, q3, q4⟩ := processPreCount_fields s
    obtain ⟨i1, i2, i3⟩ := h
    obtain ⟨jv, jc⟩ := i3 (Or.inl hst)
    refine ⟨by rw [q1, i1], ?_, ?_⟩
    · intro hl
      rw [hasAnyLoop, q1, ← hasAnyLoop]
      apply i2
      rw [q2] at hl
      exact hl
    · intro _
      refine ⟨by rw [q3]; exact jv, ?_⟩
      rw [q3, track, q1, ← track]
      exact jc
  | RECORDING =>
    have hr : (s.process x y).1 = (s.processRecording x y).1 := by
      unfold process; rw [hst]
    rw [hr]
    exact looperInv_processRecording s x y hst h

/-- C10: every looper operation preserves the invariant "the loop
length is locked only when some track has content" (strengthened with
the track-arity and active-track facts that make it inductive), and
clearing the last content-bearing track — by `clearTrack` on it or by
`clearAllTracks` — resets the state to IDLE, clears the lock (so the
length is recomputed from BPM on the next recording) and zeroes the
playback position.  (`cancelRecording` has no body under the sources
and is modelled from the spec.) -/
theorem looper_lock_invariant (s : Looper) (x y q : ℚ) (idx : Int)
    (b : Bool) (hinv : looperInv s) :
    looperInv (s.startRecordingTrack idx) ∧
    looperInv s.startPlayback ∧
    looperInv s.stopPlayback ∧
    looperInv (s.clearTrack idx) ∧
    looperInv s.clearAllTracks ∧
    looperInv (s.setBPM q) ∧
    looperInv (s.setSampleRate q) ∧
    looperInv (s.setTrackVolume idx q) ∧
    looperInv (s.setTrackMuted idx b) ∧
    looperInv (s.setTrackSolo idx b) ∧
    looperInv s.cancelRecording ∧
    looperInv (s.process x y).1 ∧
    (isValidTrackIndex idx = true →
      ¬(s.activeRecordingTrack = idx ∧
        (s.state = .PRE_COUNT ∨ s.state = .RECORDING)) →
      (∀ j, j < 4 → j ≠ idx.toNat → (s.track j).hasContent = false) →
      (s.clearTrack idx).state = .IDLE ∧
      (s.clearTrack idx).loopLengthLocked = false ∧
      (s.clearTrack idx).playbackPosition = 0) ∧
    (s.clearAllTracks.state = .IDLE ∧
     s.clearAllTracks.loopLengthLocked = false ∧
     s.clearAllTracks.playbackPosition = 0) := by
  refine ⟨looperInv_startRecordingTrack s idx hinv,
    looperInv_startPlayback s hinv,
    looperInv_stopPlayback s hinv,
    looperInv_clearTrack s idx hinv,
    looperInv_clearAllTracks s hinv,
    looperInv_setBPM s q hinv,
    looperInv_setSampleRate s q hinv,
    looperInv_setTrackVolume s idx q hinv,
    looperInv_setTrackMuted s idx b hinv,
    looperInv_setTrackSolo s idx b hinv,
    looperInv_cancelRecording s hinv,
    looperInv_process s x y hinv, ?_, ?_⟩
  · intro h1 h2 hothers
    obtain ⟨i1, i2, i3⟩ := hinv
    unfold clearTrack
    simp only [h1, Bool.not_true, Bool.false_eq_true, if_false, if_neg h2]
    have hidx : idx.toNat < s.tracks.length := by
      rw [i1]
      simp [isValidTrackIndex, MAX_TRACKS] at h1
      omega
    have hall : (s.setTrack idx.toNat
        { bufferL := [], bufferR := [], hasContent := false,
          volume := 7/10, muted := false, solo := false }).hasAnyLoop
          = false := by
      unfold hasAnyLoop setTrack
      apply list_any_false_of_pointwise _ _ defaultLoopTrack
      intro j hj
      have hj4 : j < 4 := by
        rw [List.length_set, i1] at hj
        exact hj
      by_cases hj' : idx.toNat = j
      · subst hj'
        rw [list_getD_set_self _ _ _ _ hidx]
      · rw [list_getD_set_ne _ _ _ _ _ hj']
        exact hothers j hj4 (fun hc => hj' hc.symm)
    simp [hall]
  · refine ⟨?_, ?_, ?_⟩ <;> simp [clearAllTracks, stopPlayback]

/-- Witness for C10 on `sWitness` (locked, track 0 bearing content):
the invariant survives `clearAllTracks`, and clearing the only
content-bearing track resets to IDLE and drops the lock. -/
theorem looper_lock_invariant_witness :
    looperInv sWitness.clearAllTracks ∧
    (sWitness.clearTrack 0).state = .IDLE ∧
    (sWitness.clearTrack 0).loopLengthLocked = false ∧
    (sWitness.clearTrack 0).playbackPosition = 0 := by
  have h := looper_lock_invariant sWitness 0 0 0 0 false
    (by refine ⟨by decide, ?_, ?_⟩ <;> decide)
  obtain ⟨c1, c2, c3, c4, c5, c6, c7, c8, c9, c10, c11, c12, c13, c14⟩ := h
  exact ⟨c5, c13 (by decide) (by decide) (by decide)⟩

end Looper

end Synth
